import Mathlib

/-!
Shallow embedding of the camouflage texture generator of
`src/Camo_Sphere.py` (class `CamoSphere`, method `generate_camo_pattern`),
together with proofs of the specification claims about it.

Modelling conventions:

* A numpy 2-d float array is an `Arr ℚ`: an explicit shape together with an
  entry function (entries outside the shape are junk and never relevant).
  Channel values are rationals; the pattern (a `(res, res, 3)` float array in
  the source) is an `Arr Color` with `Color` an RGB triple, so the trailing
  axis of length 3 is the triple.
* numpy broadcasting of two 2-d shapes is embedded in `bdim` (a dimension
  broadcasts against an equal one, and a dimension of 1 stretches to the
  other, including to 0); an incompatible pair raises, which we model with
  `Except NpError`.  Assigning an array into an array slice likewise
  broadcasts the source to the destination shape (`assignDim`).
* The process-wide numpy pseudorandom source is an `Rng`: a stream of
  uniform samples together with a cursor.  `np.random.seed` in
  `CamoSphere.__init__` resets the cursor to 0 on the stream determined by
  the seed (`seedRng`); `np.random.rand(m, n)` reads the next `m * n`
  samples in row-major order and advances the cursor.
* `scipy.ndimage.gaussian_filter` is an external collaborator, not code of
  this repository; it is abstracted as a parameter
  `gf : ℚ → Arr ℚ → Arr ℚ` (sigma, field ↦ smoothed field).  The facts the
  proofs need about it are its documented contract: the output has the
  shape of the input (`GfShape`) and depends only on the in-shape entries
  of the input (`GfExt`).
-/

/-- Error classes a numpy array operation can raise in this routine:
elementwise broadcasting of incompatible shapes, and assignment of an array
into a slice it cannot be broadcast to. -/
inductive NpError : Type
  | broadcastMismatch : NpError
  | assignMismatch : NpError
deriving DecidableEq

/-- A 2-d array: a shape and an entry function.  Entries at indices outside
the shape are junk and never inspected by the embedding. -/
structure Arr (α : Type) : Type where
  rows : ℕ
  cols : ℕ
  get : ℕ → ℕ → α

/-- An RGB colour: three channel intensities, as in the trailing axis of the
`(resolution, resolution, 3)` pattern array. -/
abbrev Color : Type := ℚ × ℚ × ℚ

/-- The all-zero sentinel the pattern canvas is initialised with
(`np.zeros((resolution, resolution, 3))`). -/
def colorZero : Color := (0, 0, 0)

/-- Broadcast source index: an axis of size 1 is stretched, so reads always
happen at index 0 there; any other axis is read at the requested index. -/
def bi (n i : ℕ) : ℕ := if n = 1 then 0 else i

/-- numpy broadcasting of one pair of dimensions: equal dimensions agree,
and a dimension of 1 stretches to the other one (including to 0). -/
def bdim (a b : ℕ) : Option ℕ :=
  if a = b then some a else if a = 1 then some b else if b = 1 then some a else none

/-- numpy assignment of a source axis onto a destination axis: the source
must match the destination or have size 1. -/
def assignDim (dst src : ℕ) : Prop := src = dst ∨ src = 1

instance (dst src : ℕ) : Decidable (assignDim dst src) :=
  inferInstanceAs (Decidable (_ ∨ _))

/-- The array filled by `np.random.rand(m, n)` when the source's stream is
`s` and its cursor is `c`: samples are consumed in row-major order. -/
def randArr (s : ℕ → ℚ) (c m n : ℕ) : Arr ℚ :=
  ⟨m, n, fun i j => s (c + (i * n + j))⟩

/-- The process-wide pseudorandom source: the stream of uniform samples
determined by the last seed, and the cursor of the next unread sample. -/
structure Rng : Type where
  stream : ℕ → ℚ
  cursor : ℕ

/-- `np.random.seed(seed)` as performed by `CamoSphere.__init__`: the global
source becomes the stream determined by the seed, with cursor 0. -/
def seedRng (s : ℕ → ℚ) : Rng := ⟨s, 0⟩

/-- `np.random.rand(m, n)`: read the next `m * n` samples and advance. -/
def npRandomRand (rng : Rng) (m n : ℕ) : Arr ℚ × Rng :=
  (randArr rng.stream rng.cursor m n, ⟨rng.stream, rng.cursor + m * n⟩)

/-- `np.repeat(np.repeat(a, 4, axis=0), 4, axis=1)`: index-repetition
upsampling, each cell of `a` becoming a 4×4 block. -/
def npRepeat4 (a : Arr ℚ) : Arr ℚ :=
  ⟨4 * a.rows, 4 * a.cols, fun i j => a.get (i / 4) (j / 4)⟩

/-- Multiplication of an array by a scalar (`noise * 0.6`). -/
def npScale (a : Arr ℚ) (q : ℚ) : Arr ℚ :=
  ⟨a.rows, a.cols, fun i j => a.get i j * q⟩

/-- Elementwise `+` of two arrays under numpy broadcasting; raises on
incompatible shapes. -/
def npAdd (x y : Arr ℚ) : Except NpError (Arr ℚ) :=
  match bdim x.rows y.rows, bdim x.cols y.cols with
  | some r, some c =>
      .ok ⟨r, c, fun i j =>
        x.get (bi x.rows i) (bi x.cols j) + y.get (bi y.rows i) (bi y.cols j)⟩
  | _, _ => .error .broadcastMismatch

/-- `combined_noise > threshold`: the boolean mask of one palette entry. -/
def npGt (a : Arr ℚ) (t : ℚ) : Arr Bool :=
  ⟨a.rows, a.cols, fun i j => decide (t < a.get i j)⟩

/-- The channel loop
`for c in range(3): pattern[:, :, c] = np.where(mask, color[c], pattern[:, :, c])`:
`np.where` broadcasts the mask against the canvas slice, and the result is
assigned back into the slice, which must broadcast to the canvas shape.  All
three channels use the same mask, so the loop is a per-cell overwrite. -/
def applyMask (pat : Arr Color) (mask : Arr Bool) (color : Color) :
    Except NpError (Arr Color) :=
  match bdim mask.rows pat.rows, bdim mask.cols pat.cols with
  | some br, some bc =>
      if assignDim pat.rows br ∧ assignDim pat.cols bc then
        .ok ⟨pat.rows, pat.cols, fun i j =>
          if mask.get (bi mask.rows (bi br i)) (bi mask.cols (bi bc j)) then color
          else pat.get (bi pat.rows (bi br i)) (bi pat.cols (bi bc j))⟩
      else .error .assignMismatch
  | _, _ => .error .broadcastMismatch

/-- `to_rgb('darkgreen')`, i.e. #006400. -/
def dark_green : Color := (0, 100/255, 0)

/-- `to_rgb('forestgreen')`, i.e. #228B22. -/
def forest_green : Color := (34/255, 139/255, 34/255)

/-- `to_rgb('navy')`, i.e. #000080. -/
def navy_blue : Color := (0, 0, 128/255)

/-- `to_rgb('saddlebrown')`, i.e. #8B4513. -/
def dark_brown : Color := (139/255, 69/255, 19/255)

/-- `to_rgb('olive')`, i.e. #808000. -/
def olive_green : Color := (128/255, 128/255, 0)

/-- `camo_colors = [dark_green, forest_green, navy_blue, dark_brown, olive_green]`. -/
def camoColors : List Color :=
  [dark_green, forest_green, navy_blue, dark_brown, olive_green]

/-- The colour used to fill cells still holding the zero sentinel after
compositing (`olive_green` at line 110 of the source). -/
def fallbackColor : Color := olive_green

/-- `threshold = 0.65 + i * 0.05`. -/
def theta (idx : ℕ) : ℚ := 65/100 + (idx : ℚ) * (5/100)

/-- The compositing loop `for i, color in enumerate(camo_colors): ...` of
`generate_camo_pattern`, over an explicit enumerated palette. -/
def compositeLoop (gf : ℚ → Arr ℚ → Arr ℚ) (res : ℕ) :
    List (ℕ × Color) → Arr Color → Rng → Except NpError (Arr Color × Rng)
  | [], pat, rng => .ok (pat, rng)
  | (idx, col) :: rest, pat, rng =>
      let nr1 := npRandomRand rng res res
      let nr2 := npRandomRand nr1.2 (res / 4) (res / 4)
      let noise1 := gf (2 + (idx : ℚ)) nr1.1
      let noise2 := gf 3 (npRepeat4 nr2.1)
      match npAdd (npScale noise1 (6/10)) (npScale noise2 (4/10)) with
      | .error e => .error e
      | .ok combined =>
          match applyMask pat (npGt combined (theta idx)) col with
          | .error e => .error e
          | .ok pat2 => compositeLoop gf res rest pat2 nr2.2

/-- `CamoSphere.generate_camo_pattern`: allocate the zero canvas, composite
the five palette masks in order, then fill cells still equal to the zero
sentinel with olive green. -/
def generate_camo_pattern (gf : ℚ → Arr ℚ → Arr ℚ) (resolution : ℕ) (rng : Rng) :
    Except NpError (Arr Color × Rng) :=
  let pattern : Arr Color := ⟨resolution, resolution, fun _ _ => colorZero⟩
  match compositeLoop gf resolution camoColors.enum pattern rng with
  | .error e => .error e
  | .ok (pat, rng2) =>
      let black : Arr Bool := ⟨pat.rows, pat.cols, fun i j => decide (pat.get i j = colorZero)⟩
      match applyMask pat black olive_green with
      | .error e => .error e
      | .ok pat2 => .ok (pat2, rng2)

/-- A second call of `generate_camo_pattern` on the same `CamoSphere` object:
the global source is not reseeded, so the second call starts from the cursor
the first call left behind. -/
def secondRun (gf : ℚ → Arr ℚ → Arr ℚ) (res : ℕ) (rng : Rng) :
    Except NpError (Arr Color × Rng) :=
  match generate_camo_pattern gf res rng with
  | .ok (_, rng1) => generate_camo_pattern gf res rng1
  | .error e => .error e

/-- Number of uniform samples one layer of the loop consumes. -/
def delta (res : ℕ) : ℕ := res * res + (res / 4) * (res / 4)

/-- Shape contract of `scipy.ndimage.gaussian_filter`: output shape equals
input shape. -/
def GfShape (gf : ℚ → Arr ℚ → Arr ℚ) : Prop :=
  ∀ σ a, (gf σ a).rows = a.rows ∧ (gf σ a).cols = a.cols

/-- Extensionality contract of `scipy.ndimage.gaussian_filter`: the smoothed
field depends only on the in-shape entries of the input field. -/
def GfExt (gf : ℚ → Arr ℚ → Arr ℚ) : Prop :=
  ∀ σ (a b : Arr ℚ), a.rows = b.rows → a.cols = b.cols →
    (∀ i, i < a.rows → ∀ j, j < a.cols → a.get i j = b.get i j) →
    ∀ i, i < a.rows → ∀ j, j < a.cols → (gf σ a).get i j = (gf σ b).get i j

/-- The mask value of palette entry `idx` at cell `(i, j)`, when the layer
starts reading the stream `s` at cursor `c` (valid for `i, j` inside a
resolution-`res` grid with `4 ∣ res`). -/
def maskVal (gf : ℚ → Arr ℚ → Arr ℚ) (s : ℕ → ℚ) (res c idx i j : ℕ) : Bool :=
  decide (theta idx <
    (npScale (gf (2 + (idx : ℚ)) (randArr s c res res)) (6/10)).get i j +
    (npScale (gf 3 (npRepeat4 (randArr s (c + res * res) (res / 4) (res / 4)))) (4/10)).get i j)

/-- The colour a cell holds after the compositing loop has processed the
given enumerated palette entries, starting from accumulated colour `acc`. -/
def maskFold (gf : ℚ → Arr ℚ → Arr ℚ) (s : ℕ → ℚ) (res : ℕ) :
    List (ℕ × Color) → ℕ → ℕ → ℕ → Color → Color
  | [], _, _, _, acc => acc
  | (idx, col) :: rest, c, i, j, acc =>
      maskFold gf s res rest (c + delta res) i j
        (if maskVal gf s res c idx i j then col else acc)

/-- Identity smoothing collaborator, used to instantiate witnesses and
counterexamples (a Gaussian blur fixes constant fields, and the concrete
streams used below are constant on each consumed segment). -/
def gfId : ℚ → Arr ℚ → Arr ℚ := fun _ a => a

/-- A constant stream of samples 1/2. -/
def cstHalf : ℕ → ℚ := fun _ => 1/2

/-- A constant stream of samples 99/100 (above every threshold). -/
def cst99 : ℕ → ℚ := fun _ => 99/100

/-- The shape of a successful generation result. -/
def okShape (e : Except NpError (Arr Color × Rng)) : Option (ℕ × ℕ) :=
  match e with
  | .ok (p, _) => some (p.rows, p.cols)
  | .error _ => none

/-- The cell `(i, j)` of a successful generation result. -/
def okCell (e : Except NpError (Arr Color × Rng)) (i j : ℕ) : Option Color :=
  match e with
  | .ok (p, _) => some (p.get i j)
  | .error _ => none

/-- The cursor of the source after a successful generation. -/
def okCursor (e : Except NpError (Arr Color × Rng)) : Option ℕ :=
  match e with
  | .ok (_, rng) => some rng.cursor
  | .error _ => none

/-- Whether a generation completed without raising. -/
def exceptOkB {α : Type} (e : Except NpError α) : Bool :=
  match e with
  | .ok _ => true
  | .error _ => false

/-- Whether two generation results are both successes carrying patterns of
equal shape with equal entries at every in-shape cell. -/
def patsAgree (e1 e2 : Except NpError (Arr Color × Rng)) : Bool :=
  match e1, e2 with
  | .ok (p, _), .ok (q, _) =>
      decide (p.rows = q.rows) && decide (p.cols = q.cols) &&
        decide (∀ i, i < p.rows → ∀ j, j < p.cols → p.get i j = q.get i j)
  | _, _ => false

/-- A stream whose first 85 samples (exactly the amount one generation at
resolution 4 consumes) are 7/10 and whose later samples are 0. -/
def sdiv : ℕ → ℚ := fun k => if k < 85 then 7/10 else 0

/-- A stream whose first 34 samples (exactly the amount the first two layers
at resolution 4 consume) are 4/5 and whose later samples are 0. -/
def c4s : ℕ → ℚ := fun k => if k < 34 then 4/5 else 0

/-- Whether one cell colour lies in the palette or equals the fallback
colour, and is not the all-zero sentinel. -/
def cellOK (x : Color) : Bool :=
  (decide (x ∈ camoColors) || decide (x = fallbackColor)) && decide (x ≠ colorZero)

/-- Whether a generation result is a success carrying a pattern all of whose
in-shape cells hold a palette colour or the fallback colour, none of them the
zero sentinel. -/
def coverageOK (e : Except NpError (Arr Color × Rng)) : Bool :=
  match e with
  | .ok (p, _) => decide (∀ i, i < p.rows → ∀ j, j < p.cols → cellOK (p.get i j) = true)
  | .error _ => false

/-- Whether a generation result is a success carrying a pattern all of whose
in-shape cells hold one of the five palette colours. -/
def inPaletteOK (e : Except NpError (Arr Color × Rng)) : Bool :=
  match e with
  | .ok (p, _) => decide (∀ i, i < p.rows → ∀ j, j < p.cols → p.get i j ∈ camoColors)
  | .error _ => false

/-! ### Basic lemmas about the array operations -/

lemma bi_lt {n i : ℕ} (h : i < n) : bi n i = i := by
  unfold bi
  split
  · omega
  · rfl

lemma bdim_self (n : ℕ) : bdim n n = some n := by
  simp [bdim]

lemma bdim_none {a b : ℕ} (hab : a ≠ b) (ha : a ≠ 1) (hb : b ≠ 1) :
    bdim a b = none := by
  simp [bdim, hab, ha, hb]

lemma npAdd_ok {n m : ℕ} (x y : Arr ℚ) (hxr : x.rows = n) (hxc : x.cols = m)
    (hyr : y.rows = n) (hyc : y.cols = m) :
    npAdd x y =
      .ok ⟨n, m, fun i j => x.get (bi n i) (bi m j) + y.get (bi n i) (bi m j)⟩ := by
  unfold npAdd
  rw [hxr, hxc, hyr, hyc, bdim_self, bdim_self]

lemma applyMask_ok {n m : ℕ} (pat : Arr Color) (mask : Arr Bool) (col : Color)
    (hpr : pat.rows = n) (hpc : pat.cols = m) (hmr : mask.rows = n) (hmc : mask.cols = m) :
    applyMask pat mask col =
      .ok ⟨n, m, fun i j =>
        if mask.get (bi n (bi n i)) (bi m (bi m j)) then col
        else pat.get (bi n (bi n i)) (bi m (bi m j))⟩ := by
  unfold applyMask
  rw [hpr, hpc, hmr, hmc, bdim_self, bdim_self]
  simp [assignDim]

lemma gfId_shape : GfShape gfId := fun _ _ => ⟨rfl, rfl⟩

lemma gfId_ext : GfExt gfId := fun _ _ _ _ _ h => h

lemma camoColors_enum :
    camoColors.enum = [(0, dark_green), (1, forest_green), (2, navy_blue),
      (3, dark_brown), (4, olive_green)] := rfl

lemma four_mul_div {res : ℕ} (hres : 4 ∣ res) : 4 * (res / 4) = res :=
  Nat.mul_div_cancel' hres

lemma compositeLoop_ok (gf : ℚ → Arr ℚ → Arr ℚ) (hgf : GfShape gf) {res : ℕ}
    (hres : 4 ∣ res) (L : List (ℕ × Color)) :
    ∀ (pat : Arr Color) (s : ℕ → ℚ) (c : ℕ),
      pat.rows = res → pat.cols = res →
      ∃ patF : Arr Color,
        compositeLoop gf res L pat ⟨s, c⟩ =
          .ok (patF, ⟨s, c + L.length * delta res⟩) ∧
        patF.rows = res ∧ patF.cols = res ∧
        ∀ i, i < res → ∀ j, j < res →
          patF.get i j = maskFold gf s res L c i j (pat.get i j) := by
  induction L with
  | nil =>
      intro pat s c hr hc
      exact ⟨pat, by simp [compositeLoop], hr, hc, fun i hi j hj => by simp [maskFold]⟩
  | cons hd rest ih =>
      obtain ⟨idx, col⟩ := hd
      intro pat s c hr hc
      have h4 : 4 * (res / 4) = res := four_mul_div hres
      have hx1 : (npScale (gf (2 + (idx : ℚ)) (randArr s c res res)) (6/10)).rows = res :=
        (hgf (2 + (idx : ℚ)) (randArr s c res res)).1
      have hx2 : (npScale (gf (2 + (idx : ℚ)) (randArr s c res res)) (6/10)).cols = res :=
        (hgf (2 + (idx : ℚ)) (randArr s c res res)).2
      have hrep_r : (npRepeat4 (randArr s (c + res * res) (res / 4) (res / 4))).rows = res := by
        show 4 * (res / 4) = res
        exact h4
      have hrep_c : (npRepeat4 (randArr s (c + res * res) (res / 4) (res / 4))).cols = res := by
        show 4 * (res / 4) = res
        exact h4
      have hy1 : (npScale (gf 3 (npRepeat4 (randArr s (c + res * res) (res / 4) (res / 4)))) (4/10)).rows = res :=
        ((hgf 3 (npRepeat4 (randArr s (c + res * res) (res / 4) (res / 4)))).1).trans hrep_r
      have hy2 : (npScale (gf 3 (npRepeat4 (randArr s (c + res * res) (res / 4) (res / 4)))) (4/10)).cols = res :=
        ((hgf 3 (npRepeat4 (randArr s (c + res * res) (res / 4) (res / 4)))).2).trans hrep_c
      simp only [compositeLoop, npRandomRand, seedRng]
      rw [npAdd_ok _ _ hx1 hx2 hy1 hy2]
      dsimp only
      rw [applyMask_ok _ _ _ hr hc rfl rfl]
      dsimp only
      have hcur : c + res * res + res / 4 * (res / 4) = c + delta res := by
        unfold delta; ring
      rw [hcur]
      obtain ⟨patF, hloop, hfr, hfc, hcell⟩ :=
        ih ⟨res, res, fun i j =>
          if (npGt ⟨res, res, fun i j =>
                (npScale (gf (2 + (idx : ℚ)) (randArr s c res res)) (6/10)).get (bi res i) (bi res j) +
                (npScale (gf 3 (npRepeat4 (randArr s (c + res * res) (res / 4) (res / 4)))) (4/10)).get (bi res i) (bi res j)⟩
              (theta idx)).get (bi res (bi res i)) (bi res (bi res j)) then col
          else pat.get (bi res (bi res i)) (bi res (bi res j))⟩ s (c + delta res) rfl rfl
      refine ⟨patF, ?_, hfr, hfc, ?_⟩
      · rw [hloop]
        congr 2
        simp [List.length_cons]
        ring
      · intro i hi j hj
        rw [hcell i hi j hj]
        simp only [maskFold]
        dsimp only [maskVal, npGt, npScale]
        simp only [bi_lt hi, bi_lt hj]

lemma generate_ok (gf : ℚ → Arr ℚ → Arr ℚ) (hgf : GfShape gf) (res : ℕ)
    (hres : 4 ∣ res) (s : ℕ → ℚ) (c : ℕ) :
    ∃ patF : Arr Color,
      generate_camo_pattern gf res ⟨s, c⟩ =
        .ok (patF, ⟨s, c + 5 * delta res⟩) ∧
      patF.rows = res ∧ patF.cols = res ∧
      ∀ i, i < res → ∀ j, j < res →
        patF.get i j =
          (if maskFold gf s res camoColors.enum c i j colorZero = colorZero
           then olive_green
           else maskFold gf s res camoColors.enum c i j colorZero) := by
  obtain ⟨patL, hloop, hr, hc, hcell⟩ :=
    compositeLoop_ok gf hgf hres camoColors.enum
      ⟨res, res, fun _ _ => colorZero⟩ s c rfl rfl
  have hlen : camoColors.enum.length = 5 := rfl
  rw [hlen] at hloop
  simp only [generate_camo_pattern]
  rw [hloop]
  dsimp only
  rw [applyMask_ok patL ⟨patL.rows, patL.cols, fun i j => decide (patL.get i j = colorZero)⟩
    olive_green hr hc hr hc]
  dsimp only
  refine ⟨_, rfl, rfl, rfl, ?_⟩
  intro i hi j hj
  simp only [bi_lt hi, bi_lt hj]
  rw [hcell i hi j hj]
  simp [decide_eq_true_eq]

lemma generate_err (gf : ℚ → Arr ℚ → Arr ℚ) (hgf : GfShape gf) (s : ℕ → ℚ) (c : ℕ)
    (res : ℕ) (h0 : res ≠ 0) (hnd : ¬ 4 ∣ res) :
    generate_camo_pattern gf res ⟨s, c⟩ =
      .error (if res = 1 then NpError.assignMismatch else NpError.broadcastMismatch) := by
  have hx1 : (npScale (gf (2 + ((0 : ℕ) : ℚ)) (randArr s c res res)) (6/10)).rows = res :=
    (hgf _ _).1
  have hx2 : (npScale (gf (2 + ((0 : ℕ) : ℚ)) (randArr s c res res)) (6/10)).cols = res :=
    (hgf _ _).2
  have hy1 : (npScale (gf 3 (npRepeat4 (randArr s (c + res * res) (res / 4) (res / 4)))) (4/10)).rows
      = 4 * (res / 4) := (hgf _ _).1
  have hy2 : (npScale (gf 3 (npRepeat4 (randArr s (c + res * res) (res / 4) (res / 4)))) (4/10)).cols
      = 4 * (res / 4) := (hgf _ _).2
  simp only [generate_camo_pattern, camoColors_enum, compositeLoop, npRandomRand]
  by_cases h1 : res = 1
  · subst h1
    rw [if_pos rfl]
    unfold npAdd
    rw [hx1, hx2, hy1, hy2]
    norm_num [bdim]
    unfold applyMask
    dsimp only [npGt]
    norm_num [bdim, assignDim]
  · rw [if_neg h1]
    have hne : res ≠ 4 * (res / 4) := by
      intro h
      exact hnd ⟨res / 4, h⟩
    have hne1 : 4 * (res / 4) ≠ 1 := by omega
    unfold npAdd
    rw [hx1, hx2, hy1, hy2, bdim_none hne h1 hne1]

/-! ### The composited colour of a cell only depends on the consumed stream
segment, and always lies in the palette -/

lemma maskVal_congr (gf : ℚ → Arr ℚ → Arr ℚ) (hext : GfExt gf)
    {res : ℕ} (hres : 4 ∣ res) (s t : ℕ → ℚ) (c : ℕ)
    (hst : ∀ k, c ≤ k → k < c + delta res → s k = t k)
    (idx i j : ℕ) (hi : i < res) (hj : j < res) :
    maskVal gf s res c idx i j = maskVal gf t res c idx i j := by
  have h4 : 4 * (res / 4) = res := four_mul_div hres
  have h1 : (gf (2 + (idx : ℚ)) (randArr s c res res)).get i j =
      (gf (2 + (idx : ℚ)) (randArr t c res res)).get i j := by
    apply hext (2 + (idx : ℚ)) (randArr s c res res) (randArr t c res res) rfl rfl _ i hi j hj
    intro a ha b hb
    have ha2 : a < res := ha
    have hb2 : b < res := hb
    show s (c + (a * res + b)) = t (c + (a * res + b))
    apply hst
    · omega
    · have hb1 : a * res + b < res * res := by
        have h5 : a * res + res ≤ res * res := by
          calc a * res + res = (a + 1) * res := by ring
            _ ≤ res * res := Nat.mul_le_mul_right res ha2
        omega
      unfold delta
      omega
  have h2 : (gf 3 (npRepeat4 (randArr s (c + res * res) (res / 4) (res / 4)))).get i j =
      (gf 3 (npRepeat4 (randArr t (c + res * res) (res / 4) (res / 4)))).get i j := by
    have hi4 : i < 4 * (res / 4) := by rw [h4]; exact hi
    have hj4 : j < 4 * (res / 4) := by rw [h4]; exact hj
    apply hext 3 (npRepeat4 (randArr s (c + res * res) (res / 4) (res / 4)))
      (npRepeat4 (randArr t (c + res * res) (res / 4) (res / 4))) rfl rfl _ i hi4 j hj4
    intro a ha b hb
    have ha2 : a < 4 * (res / 4) := ha
    have hb2 : b < 4 * (res / 4) := hb
    show s (c + res * res + (a / 4 * (res / 4) + b / 4)) =
      t (c + res * res + (a / 4 * (res / 4) + b / 4))
    have ha4 : a / 4 < res / 4 := by omega
    have hb4 : b / 4 < res / 4 := by omega
    apply hst
    · omega
    · have : a / 4 * (res / 4) + b / 4 < res / 4 * (res / 4) := by
        have h5 : a / 4 * (res / 4) + res / 4 ≤ res / 4 * (res / 4) := by
          calc a / 4 * (res / 4) + res / 4 = (a / 4 + 1) * (res / 4) := by ring
            _ ≤ res / 4 * (res / 4) := Nat.mul_le_mul_right (res / 4) ha4
        omega
      unfold delta
      omega
  unfold maskVal
  dsimp only [npScale]
  rw [h1, h2]

lemma maskFold_congr (gf : ℚ → Arr ℚ → Arr ℚ) (hext : GfExt gf)
    {res : ℕ} (hres : 4 ∣ res) (s t : ℕ → ℚ) (L : List (ℕ × Color)) :
    ∀ (c : ℕ) (acc : Color) (i j : ℕ), i < res → j < res →
      (∀ k, c ≤ k → k < c + L.length * delta res → s k = t k) →
      maskFold gf s res L c i j acc = maskFold gf t res L c i j acc := by
  induction L with
  | nil => intro c acc i j hi hj hst; rfl
  | cons hd rest ih =>
      obtain ⟨idx, col⟩ := hd
      intro c acc i j hi hj hst
      simp only [maskFold]
      have hm : maskVal gf s res c idx i j = maskVal gf t res c idx i j := by
        apply maskVal_congr gf hext hres s t c _ idx i j hi hj
        intro k hk1 hk2
        apply hst k hk1
        simp only [List.length_cons]
        have h1 : 1 * delta res ≤ (rest.length + 1) * delta res :=
          Nat.mul_le_mul_right _ (by omega)
        omega
      rw [hm]
      apply ih (c + delta res) _ i j hi hj
      intro k hk1 hk2
      apply hst k (by omega)
      simp only [List.length_cons]
      have h1 : (rest.length + 1) * delta res = rest.length * delta res + delta res := by ring
      omega

lemma maskFold_mem (gf : ℚ → Arr ℚ → Arr ℚ) (s : ℕ → ℚ) (res : ℕ)
    (L : List (ℕ × Color)) :
    ∀ (c : ℕ) (acc : Color) (i j : ℕ),
      maskFold gf s res L c i j acc = acc ∨
      maskFold gf s res L c i j acc ∈ L.map Prod.snd := by
  induction L with
  | nil => intro c acc i j; exact Or.inl rfl
  | cons hd rest ih =>
      obtain ⟨idx, col⟩ := hd
      intro c acc i j
      simp only [maskFold]
      rcases ih (c + delta res) (if maskVal gf s res c idx i j then col else acc) i j with h | h
      · rw [h]
        by_cases hm : maskVal gf s res c idx i j
        · right
          simp [hm]
        · left
          simp [hm]
      · right
        simp only [List.map_cons]
        exact List.mem_cons_of_mem _ h

/-! ### Claim theorems -/

/-- C1, as stated, is false: at resolution 5 (one of the tested resolutions)
`generate_camo_pattern` raises a broadcast error instead of returning a
`(5, 5, 3)` array, because the block-replicated low-frequency field is 4×4. -/
theorem C1_counterexample :
    generate_camo_pattern gfId 5 (seedRng cstHalf) = .error .broadcastMismatch := rfl

/-- C1 amended: for every resolution divisible by 4 — in particular 4 and
100 from the tested set — generation completes and the pattern has shape
(resolution, resolution, 3); for the tested resolutions 1, 5 and 50 it
raises an error instead (an assignment mismatch at resolution 1, a broadcast
mismatch at 5 and 50). -/
theorem C1_amended (gf : ℚ → Arr ℚ → Arr ℚ) (hgf : GfShape gf) (s : ℕ → ℚ) (c : ℕ) :
    (∀ res : ℕ, 4 ∣ res →
      okShape (generate_camo_pattern gf res ⟨s, c⟩) = some (res, res)) ∧
    generate_camo_pattern gf 1 ⟨s, c⟩ = .error .assignMismatch ∧
    generate_camo_pattern gf 5 ⟨s, c⟩ = .error .broadcastMismatch ∧
    generate_camo_pattern gf 50 ⟨s, c⟩ = .error .broadcastMismatch := by
  refine ⟨?_, ?_, ?_, ?_⟩
  · intro res hres
    obtain ⟨p, hp, hr, hc2, _⟩ := generate_ok gf hgf res hres s c
    rw [hp]
    simp [okShape, hr, hc2]
  · have h := generate_err gf hgf s c 1 (by omega) (by omega)
    simpa using h
  · have h := generate_err gf hgf s c 5 (by omega) (by omega)
    simpa using h
  · have h := generate_err gf hgf s c 50 (by omega) (by omega)
    simpa using h

/-- Witness for C1 amended at the identity smoothing collaborator and a
constant stream: generation at resolution 4 returns a 4×4 pattern. -/
theorem C1_witness :
    okShape (generate_camo_pattern gfId 4 (seedRng cstHalf)) = some (4, 4) :=
  (C1_amended gfId gfId_shape cstHalf 0).1 4 ⟨1, rfl⟩

/-- C5, as stated, is false: resolution 50 is positive (so valid per the
claimed precondition) and the palette is the hardcoded non-empty list, yet
generation raises — a broadcast shape mismatch partway through the first
layer, not an invalid-argument error at the start. -/
theorem C5_counterexample :
    generate_camo_pattern gfId 50 (seedRng cstHalf) = .error .broadcastMismatch := rfl

/-- C5 amended: the routine performs no argument validation at all and its
hardcoded palette is never empty; the errors it actually raises are shape
mismatches partway through generation: every positive resolution not
divisible by 4 fails, with a broadcast mismatch when the resolution is at
least 2 and an assignment mismatch when it is 1. -/
theorem C5_amended (gf : ℚ → Arr ℚ → Arr ℚ) (hgf : GfShape gf) (s : ℕ → ℚ) (c : ℕ)
    (res : ℕ) (hpos : 0 < res) (hnd : ¬ 4 ∣ res) :
    generate_camo_pattern gf res ⟨s, c⟩ =
      .error (if res = 1 then NpError.assignMismatch else NpError.broadcastMismatch) :=
  generate_err gf hgf s c res (by omega) hnd

/-- Witness for C5 amended: resolution 6 raises a broadcast mismatch. -/
theorem C5_witness :
    generate_camo_pattern gfId 6 (seedRng cstHalf) = .error .broadcastMismatch := by
  have h := C5_amended gfId gfId_shape cstHalf 0 6 (by omega) (by omega)
  simpa using h

/-- C9, as stated, is false at resolution 1: the elementwise combination of
the 1×1 high-frequency field with the empty block-replicated low-frequency
field does not fail — numpy broadcasting stretches the 1-sized axes against
the 0-sized ones and yields an empty combined field — and generation instead
fails later, when the empty mask is composited into the 1×1 canvas. -/
theorem C9_counterexample :
    exceptOkB (npAdd (npScale (gfId (2 + ((0 : ℕ) : ℚ)) (randArr cstHalf 0 1 1)) (6/10))
      (npScale (gfId 3 (npRepeat4 (randArr cstHalf (0 + 1 * 1) (1 / 4) (1 / 4)))) (4/10))) = true ∧
    generate_camo_pattern gfId 1 (seedRng cstHalf) = .error .assignMismatch :=
  ⟨rfl, rfl⟩

/-- C9 amended: for every positive resolution, generation completes without
error exactly when 4 divides the resolution; when it does not, the failure
is a shape mismatch — at the elementwise combination for resolutions at
least 2, while for resolution 1 the combination itself succeeds by
broadcasting and the failure occurs at the mask-compositing assignment. -/
theorem C9_amended (gf : ℚ → Arr ℚ → Arr ℚ) (hgf : GfShape gf) (s : ℕ → ℚ) (c : ℕ)
    (res : ℕ) (hpos : 0 < res) :
    exceptOkB (generate_camo_pattern gf res ⟨s, c⟩) = true ↔ 4 ∣ res := by
  constructor
  · intro h
    by_contra hnd
    rw [generate_err gf hgf s c res (by omega) hnd] at h
    simp [exceptOkB] at h
  · intro hres
    obtain ⟨p, hp, _, _, _⟩ := generate_ok gf hgf res hres s c
    rw [hp]
    rfl

/-- Witness for C9 amended: resolution 4 generation completes. -/
theorem C9_witness : exceptOkB (generate_camo_pattern gfId 4 (seedRng cstHalf)) = true :=
  (C9_amended gfId gfId_shape cstHalf 0 4 (by omega)).mpr ⟨1, rfl⟩

lemma olive_mem : olive_green ∈ camoColors := by simp [camoColors]

lemma olive_ne_zero : olive_green ≠ colorZero := by
  norm_num [olive_green, colorZero, Prod.ext_iff]

lemma enum_map_snd : camoColors.enum.map Prod.snd = camoColors := rfl

/-- C3: after a successful generation every in-shape cell of the pattern
holds a palette colour or the fallback colour, and no cell still holds the
all-zero sentinel the canvas was initialised with. -/
theorem C3_coverage (gf : ℚ → Arr ℚ → Arr ℚ) (hgf : GfShape gf) (res : ℕ)
    (hres : 4 ∣ res) (s : ℕ → ℚ) (c : ℕ) :
    coverageOK (generate_camo_pattern gf res ⟨s, c⟩) = true := by
  obtain ⟨p, hp, hr, hc2, hcell⟩ := generate_ok gf hgf res hres s c
  rw [hp]
  unfold coverageOK
  apply decide_eq_true
  rw [hr, hc2]
  intro i hi j hj
  rw [hcell i hi j hj]
  by_cases hv : maskFold gf s res camoColors.enum c i j colorZero = colorZero
  · rw [if_pos hv]
    simp [cellOK, olive_mem, olive_ne_zero]
  · rw [if_neg hv]
    rcases maskFold_mem gf s res camoColors.enum c colorZero i j with h | h
    · exact absurd h hv
    · rw [enum_map_snd] at h
      simp [cellOK, h, hv]

/-- Witness for C3 at the identity collaborator, a constant stream and
resolution 4. -/
theorem C3_witness :
    coverageOK (generate_camo_pattern gfId 4 (seedRng cstHalf)) = true :=
  C3_coverage gfId gfId_shape 4 ⟨1, rfl⟩ cstHalf 0

/-- C10: the fallback colour is the last palette entry (olive green), so the
set palette ∪ \x7bfallback\x7d is the palette itself, and after a successful
generation every in-shape cell holds one of exactly the five palette
colours. -/
theorem C10_fallback (gf : ℚ → Arr ℚ → Arr ℚ) (hgf : GfShape gf) (res : ℕ)
    (hres : 4 ∣ res) (s : ℕ → ℚ) (c : ℕ) :
    camoColors.getLast? = some fallbackColor ∧
    (∀ col : Color, (col ∈ camoColors ∨ col = fallbackColor) ↔ col ∈ camoColors) ∧
    inPaletteOK (generate_camo_pattern gf res ⟨s, c⟩) = true := by
  refine ⟨rfl, ?_, ?_⟩
  · intro col
    constructor
    · rintro (h | h)
      · exact h
      · rw [h]
        exact olive_mem
    · exact Or.inl
  · obtain ⟨p, hp, hr, hc2, hcell⟩ := generate_ok gf hgf res hres s c
    rw [hp]
    unfold inPaletteOK
    apply decide_eq_true
    rw [hr, hc2]
    intro i hi j hj
    rw [hcell i hi j hj]
    by_cases hv : maskFold gf s res camoColors.enum c i j colorZero = colorZero
    · rw [if_pos hv]
      exact olive_mem
    · rw [if_neg hv]
      rcases maskFold_mem gf s res camoColors.enum c colorZero i j with h | h
      · exact absurd h hv
      · rw [enum_map_snd] at h
        exact h

/-- Witness for C10 at the identity collaborator, a constant stream and
resolution 4. -/
theorem C10_witness :
    camoColors.getLast? = some fallbackColor ∧
    inPaletteOK (generate_camo_pattern gfId 4 (seedRng cstHalf)) = true :=
  ⟨(C10_fallback gfId gfId_shape 4 ⟨1, rfl⟩ cstHalf 0).1,
   (C10_fallback gfId gfId_shape 4 ⟨1, rfl⟩ cstHalf 0).2.2⟩

/-- C7: holding a combined noise field fixed, the mask of the higher
threshold index is a subset of the mask of the lower one: every cell above
threshold 0.65 + 0.05·j is above threshold 0.65 + 0.05·i for i < j. -/
theorem C7_threshold (a : Arr ℚ) (i j r q : ℕ) (hij : i < j)
    (h : (npGt a (theta j)).get r q = true) :
    (npGt a (theta i)).get r q = true := by
  simp only [npGt, decide_eq_true_eq] at h ⊢
  have hle : theta i ≤ theta j := by
    unfold theta
    have hij2 : (i : ℚ) ≤ (j : ℚ) := by exact_mod_cast hij.le
    nlinarith
  linarith

/-- Witness for C7: a concrete 1×1 field with entry 99/100 is above
threshold index 1, hence above threshold index 0. -/
theorem C7_witness : (npGt (randArr cst99 0 1 1) (theta 0)).get 0 0 = true := by
  apply C7_threshold (randArr cst99 0 1 1) 0 1 0 0 (by omega)
  simp only [npGt, randArr, theta, decide_eq_true_eq, cst99]
  norm_num

/-- C2: generation is determined by the consumed stream prefix — two runs
whose freshly seeded sources agree on the 5·(res² + (res/4)²) samples a run
consumes produce patterns of equal shape that agree at every in-shape cell
(with the same seed the streams are equal, so two runs are bit-identical). -/
theorem C2_determinism (gf : ℚ → Arr ℚ → Arr ℚ) (hgf : GfShape gf) (hext : GfExt gf)
    (res : ℕ) (hres : 4 ∣ res) (s t : ℕ → ℚ)
    (hst : ∀ k, k < 5 * delta res → s k = t k) :
    patsAgree (generate_camo_pattern gf res (seedRng s))
      (generate_camo_pattern gf res (seedRng t)) = true := by
  obtain ⟨p, hp, hpr, hpc, hpcell⟩ := generate_ok gf hgf res hres s 0
  obtain ⟨q, hq, hqr, hqc, hqcell⟩ := generate_ok gf hgf res hres t 0
  unfold seedRng
  rw [hp, hq]
  have hball : ∀ i, i < res → ∀ j, j < res → p.get i j = q.get i j := by
    intro i hi j hj
    rw [hpcell i hi j hj, hqcell i hi j hj]
    have hfold : maskFold gf s res camoColors.enum 0 i j colorZero =
        maskFold gf t res camoColors.enum 0 i j colorZero := by
      apply maskFold_congr gf hext hres s t camoColors.enum 0 colorZero i j hi hj
      intro k hk1 hk2
      apply hst
      have hlen : camoColors.enum.length = 5 := rfl
      rw [hlen] at hk2
      omega
    rw [hfold]
  unfold patsAgree
  dsimp only
  rw [hpr, hpc, hqr, hqc]
  simp
  exact hball

/-- Witness for C2: two runs on the same constant stream agree. -/
theorem C2_witness :
    patsAgree (generate_camo_pattern gfId 4 (seedRng cstHalf))
      (generate_camo_pattern gfId 4 (seedRng cstHalf)) = true :=
  C2_determinism gfId gfId_shape gfId_ext 4 ⟨1, rfl⟩ cstHalf cstHalf
    (fun _ _ => rfl)

/-- C6, as stated, is false at resolution 5: the block-replicated
low-frequency field is a 4×4 grid, not the claimed 5×5 one, because each of
the (5 div 4) = 1 low-resolution cells expands to a 4×4 block. -/
theorem C6_counterexample :
    (npRepeat4 ((npRandomRand (seedRng cstHalf) (5 / 4) (5 / 4)).1)).rows ≠ 5 := by
  decide

/-- C6 amended: for every palette layer the low-frequency noise field is
drawn on a (res div 4)×(res div 4) grid and upsampled by block-replication,
each low-resolution cell expanding to a 4×4 block of identical values; the
upsampled grid has side 4·(res div 4), which equals the resolution exactly
when 4 divides it. -/
theorem C6_amended (s : ℕ → ℚ) (c res : ℕ) :
    (npRandomRand ⟨s, c⟩ (res / 4) (res / 4)).1.rows = res / 4 ∧
    (npRandomRand ⟨s, c⟩ (res / 4) (res / 4)).1.cols = res / 4 ∧
    (npRepeat4 ((npRandomRand ⟨s, c⟩ (res / 4) (res / 4)).1)).rows = 4 * (res / 4) ∧
    (npRepeat4 ((npRandomRand ⟨s, c⟩ (res / 4) (res / 4)).1)).cols = 4 * (res / 4) ∧
    (∀ r q di dj : ℕ, di < 4 → dj < 4 →
      (npRepeat4 ((npRandomRand ⟨s, c⟩ (res / 4) (res / 4)).1)).get (4 * r + di) (4 * q + dj) =
        (npRandomRand ⟨s, c⟩ (res / 4) (res / 4)).1.get r q) ∧
    (4 ∣ res →
      (npRepeat4 ((npRandomRand ⟨s, c⟩ (res / 4) (res / 4)).1)).rows = res ∧
      (npRepeat4 ((npRandomRand ⟨s, c⟩ (res / 4) (res / 4)).1)).cols = res) := by
  refine ⟨rfl, rfl, rfl, rfl, ?_, ?_⟩
  · intro r q di dj hdi hdj
    show (npRandomRand ⟨s, c⟩ (res / 4) (res / 4)).1.get ((4 * r + di) / 4) ((4 * q + dj) / 4) = _
    have h1 : (4 * r + di) / 4 = r := by omega
    have h2 : (4 * q + dj) / 4 = q := by omega
    rw [h1, h2]
  · intro h
    exact ⟨four_mul_div h, four_mul_div h⟩

/-- Witness for C6 amended at resolution 8: the cell (7, 2) of the
upsampled grid replicates the low-resolution cell (1, 0), and the upsampled
grid has side 8. -/
theorem C6_witness :
    (npRepeat4 ((npRandomRand (seedRng cstHalf) (8 / 4) (8 / 4)).1)).get 7 2 =
      (npRandomRand (seedRng cstHalf) (8 / 4) (8 / 4)).1.get 1 0 ∧
    (npRepeat4 ((npRandomRand (seedRng cstHalf) (8 / 4) (8 / 4)).1)).rows = 8 := by
  have h := C6_amended cstHalf 0 8
  exact ⟨h.2.2.2.2.1 1 0 3 2 (by omega) (by omega), (h.2.2.2.2.2 ⟨2, rfl⟩).1⟩

lemma forest_ne_zero : forest_green ≠ colorZero := by
  norm_num [forest_green, colorZero, Prod.ext_iff]

lemma navy_ne_zero : navy_blue ≠ colorZero := by
  norm_num [navy_blue, colorZero, Prod.ext_iff]

lemma brown_ne_zero : dark_brown ≠ colorZero := by
  norm_num [dark_brown, colorZero, Prod.ext_iff]

lemma dark_ne_zero : dark_green ≠ colorZero := by
  norm_num [dark_green, colorZero, Prod.ext_iff]

lemma cst99_maskVal (c k i j : ℕ) (hk : k < 5) : maskVal gfId cst99 4 c k i j = true := by
  apply decide_eq_true
  dsimp only [gfId, npScale, npRepeat4, randArr, cst99]
  have hk4 : (k : ℚ) ≤ 4 := by exact_mod_cast (by omega : k ≤ 4)
  unfold theta
  nlinarith

lemma cst99_cell (c i j : ℕ) :
    maskFold gfId cst99 4 camoColors.enum c i j colorZero = olive_green := by
  have h0 : ∀ c2, maskVal gfId cst99 4 c2 0 i j = true := fun c2 => cst99_maskVal c2 0 i j (by omega)
  have h1 : ∀ c2, maskVal gfId cst99 4 c2 1 i j = true := fun c2 => cst99_maskVal c2 1 i j (by omega)
  have h2 : ∀ c2, maskVal gfId cst99 4 c2 2 i j = true := fun c2 => cst99_maskVal c2 2 i j (by omega)
  have h3 : ∀ c2, maskVal gfId cst99 4 c2 3 i j = true := fun c2 => cst99_maskVal c2 3 i j (by omega)
  have h4 : ∀ c2, maskVal gfId cst99 4 c2 4 i j = true := fun c2 => cst99_maskVal c2 4 i j (by omega)
  rw [camoColors_enum]
  simp only [maskFold, h0, h1, h2, h3, h4, if_true]

/-- C4, as stated, is false: with a stream that keeps every combined field
at 99/100, the cell (0, 0) is claimed by the masks of indices 0 and 1
(an instance of i < j), yet its final colour is the olive green of index 4 —
the colour of the last claiming index, not of index j = 1. -/
theorem C4_counterexample :
    maskVal gfId cst99 4 0 0 0 0 = true ∧
    maskVal gfId cst99 4 (delta 4) 1 0 0 = true ∧
    okCell (generate_camo_pattern gfId 4 (seedRng cst99)) 0 0 = some olive_green ∧
    olive_green ≠ forest_green := by
  refine ⟨cst99_maskVal 0 0 0 0 (by omega), cst99_maskVal (delta 4) 1 0 0 (by omega), ?_, ?_⟩
  · obtain ⟨p, hp, hpr, hpc, hcell⟩ := generate_ok gfId gfId_shape 4 ⟨1, rfl⟩ cst99 0
    simp only [seedRng]
    rw [hp]
    dsimp only [okCell]
    rw [hcell 0 (by omega) 0 (by omega), cst99_cell, if_neg olive_ne_zero]
  · norm_num [olive_green, forest_green, Prod.ext_iff]

/-- C4 amended: compositing is strictly in palette order and each later mask
overwrites earlier writes, so for a cell claimed by the masks of indices
i < j where j is also the last index claiming it, the final colour is the
colour of index j. -/
theorem C4_amended (gf : ℚ → Arr ℚ → Arr ℚ) (hgf : GfShape gf) (res : ℕ) (hres : 4 ∣ res)
    (s : ℕ → ℚ) (c i j r q : ℕ) (hij : i < j) (hj5 : j < 5) (hr : r < res) (hq : q < res)
    (hmi : maskVal gf s res (c + i * delta res) i r q = true)
    (hmj : maskVal gf s res (c + j * delta res) j r q = true)
    (hlater : ∀ k, k < 5 → j < k → maskVal gf s res (c + k * delta res) k r q = false) :
    okCell (generate_camo_pattern gf res ⟨s, c⟩) r q = some (camoColors.getD j colorZero) := by
  obtain ⟨p, hp, hpr, hpc, hcell⟩ := generate_ok gf hgf res hres s c
  rw [hp]
  dsimp only [okCell]
  rw [hcell r hr q hq, camoColors_enum]
  simp only [maskFold]
  have e4 : c + delta res + delta res + delta res + delta res = c + 4 * delta res := by ring
  have e3 : c + delta res + delta res + delta res = c + 3 * delta res := by ring
  have e2 : c + delta res + delta res = c + 2 * delta res := by ring
  have e1 : c + delta res = c + 1 * delta res := by ring
  rw [e4, e3, e2, e1]
  interval_cases j
  · omega
  · rw [hmj, hlater 2 (by omega) (by omega), hlater 3 (by omega) (by omega),
      hlater 4 (by omega) (by omega)]
    simp only [if_true, Bool.false_eq_true, if_false]
    rw [if_neg forest_ne_zero]
    rfl
  · rw [hmj, hlater 3 (by omega) (by omega), hlater 4 (by omega) (by omega)]
    simp only [if_true, Bool.false_eq_true, if_false]
    rw [if_neg navy_ne_zero]
    rfl
  · rw [hmj, hlater 4 (by omega) (by omega)]
    simp only [if_true, Bool.false_eq_true, if_false]
    rw [if_neg brown_ne_zero]
    rfl
  · rw [hmj]
    simp only [if_true]
    rw [if_neg olive_ne_zero]
    rfl

lemma c4s_maskVal_early (c : ℕ) (hc : c + 16 < 34) (k : ℕ) (hk : k < 2) :
    maskVal gfId c4s 4 c k 0 0 = true := by
  apply decide_eq_true
  dsimp only [gfId, npScale, npRepeat4, randArr, c4s]
  rw [if_pos (by omega : c + (0 * 4 + 0) < 34), if_pos (by omega : c + 4 * 4 + (0 / 4 * 1 + 0 / 4) < 34)]
  have hk1 : (k : ℚ) ≤ 1 := by exact_mod_cast (by omega : k ≤ 1)
  unfold theta
  nlinarith

lemma c4s_maskVal_late (c : ℕ) (hc : 34 ≤ c) (k : ℕ) :
    maskVal gfId c4s 4 c k 0 0 = false := by
  apply decide_eq_false
  dsimp only [gfId, npScale, npRepeat4, randArr, c4s]
  rw [if_neg (by omega : ¬ c + (0 * 4 + 0) < 34), if_neg (by omega : ¬ c + 4 * 4 + (0 / 4 * 1 + 0 / 4) < 34)]
  have hk0 : (0 : ℚ) ≤ (k : ℚ) := Nat.cast_nonneg k
  unfold theta
  intro habs
  nlinarith

/-- Witness for C4 amended: with a stream whose first two layers see 4/5 and
whose later layers see 0, the cell (0, 0) is claimed by masks 0 and 1 and by
no later mask, and its final colour is forest green, the colour of index 1. -/
theorem C4_witness :
    okCell (generate_camo_pattern gfId 4 (seedRng c4s)) 0 0 = some forest_green := by
  have h := C4_amended gfId gfId_shape 4 ⟨1, rfl⟩ c4s 0 0 1 0 0
    (by omega) (by omega) (by omega) (by omega)
    (c4s_maskVal_early (0 + 0 * delta 4) (by norm_num [delta]) 0 (by omega))
    (c4s_maskVal_early (0 + 1 * delta 4) (by norm_num [delta]) 1 (by omega))
    (fun k hk5 hk1 => c4s_maskVal_late (0 + k * delta 4) (by
      have hd : delta 4 = 17 := rfl
      rw [hd]
      omega) k)
  exact h

lemma sdiv_maskVal_first (c : ℕ) (hc : c + 16 < 85) :
    maskVal gfId sdiv 4 c 0 0 0 = true := by
  apply decide_eq_true
  dsimp only [gfId, npScale, npRepeat4, randArr, sdiv]
  rw [if_pos (by omega : c + (0 * 4 + 0) < 85), if_pos (by omega : c + 4 * 4 + (0 / 4 * 1 + 0 / 4) < 85)]
  unfold theta
  norm_num

lemma sdiv_maskVal_first_hi (c : ℕ) (hc : c + 16 < 85) (k : ℕ) (hk : 1 ≤ k) :
    maskVal gfId sdiv 4 c k 0 0 = false := by
  apply decide_eq_false
  dsimp only [gfId, npScale, npRepeat4, randArr, sdiv]
  rw [if_pos (by omega : c + (0 * 4 + 0) < 85), if_pos (by omega : c + 4 * 4 + (0 / 4 * 1 + 0 / 4) < 85)]
  have hk1 : (1 : ℚ) ≤ (k : ℚ) := by exact_mod_cast hk
  unfold theta
  intro habs
  nlinarith

lemma sdiv_maskVal_late (c : ℕ) (hc : 85 ≤ c) (k : ℕ) :
    maskVal gfId sdiv 4 c k 0 0 = false := by
  apply decide_eq_false
  dsimp only [gfId, npScale, npRepeat4, randArr, sdiv]
  rw [if_neg (by omega : ¬ c + (0 * 4 + 0) < 85), if_neg (by omega : ¬ c + 4 * 4 + (0 / 4 * 1 + 0 / 4) < 85)]
  have hk0 : (0 : ℚ) ≤ (k : ℚ) := Nat.cast_nonneg k
  unfold theta
  intro habs
  nlinarith

lemma sdiv_cell_first :
    maskFold gfId sdiv 4 camoColors.enum 0 0 0 colorZero = dark_green := by
  rw [camoColors_enum]
  simp only [maskFold]
  rw [sdiv_maskVal_first 0 (by norm_num),
    sdiv_maskVal_first_hi (0 + delta 4) (by norm_num [delta]) 1 (by omega),
    sdiv_maskVal_first_hi (0 + delta 4 + delta 4) (by norm_num [delta]) 2 (by omega),
    sdiv_maskVal_first_hi (0 + delta 4 + delta 4 + delta 4) (by norm_num [delta]) 3 (by omega),
    sdiv_maskVal_first_hi (0 + delta 4 + delta 4 + delta 4 + delta 4) (by norm_num [delta]) 4 (by omega)]
  simp

lemma sdiv_cell_second :
    maskFold gfId sdiv 4 camoColors.enum (0 + 5 * delta 4) 0 0 colorZero = colorZero := by
  rw [camoColors_enum]
  simp only [maskFold]
  rw [sdiv_maskVal_late (0 + 5 * delta 4) (by norm_num [delta]) 0,
    sdiv_maskVal_late (0 + 5 * delta 4 + delta 4) (by norm_num [delta]) 1,
    sdiv_maskVal_late (0 + 5 * delta 4 + delta 4 + delta 4) (by norm_num [delta]) 2,
    sdiv_maskVal_late (0 + 5 * delta 4 + delta 4 + delta 4 + delta 4) (by norm_num [delta]) 3,
    sdiv_maskVal_late (0 + 5 * delta 4 + delta 4 + delta 4 + delta 4 + delta 4) (by norm_num [delta]) 4]
  simp

/-- C8, as stated, is false as a consequence of the seeding mechanism alone:
on a source whose stream is constantly 99/100, a second invocation on the
same object — without reseeding, continuing at the advanced cursor —
reproduces the first invocation's pattern exactly (both are all olive), so
advancing the cursor does not by itself force a different pattern. -/
theorem C8_counterexample :
    patsAgree (generate_camo_pattern gfId 4 (seedRng cst99))
      (secondRun gfId 4 (seedRng cst99)) = true := by
  obtain ⟨p, hp, hpr, hpc, hpcell⟩ := generate_ok gfId gfId_shape 4 ⟨1, rfl⟩ cst99 0
  obtain ⟨q, hq, hqr, hqc, hqcell⟩ :=
    generate_ok gfId gfId_shape 4 ⟨1, rfl⟩ cst99 (0 + 5 * delta 4)
  have hsec : secondRun gfId 4 (seedRng cst99) =
      .ok (q, ⟨cst99, 0 + 5 * delta 4 + 5 * delta 4⟩) := by
    unfold secondRun
    simp only [seedRng]
    rw [hp]
    exact hq
  simp only [seedRng] at hsec ⊢
  rw [hp, hsec]
  unfold patsAgree
  dsimp only
  rw [hpr, hpc, hqr, hqc]
  have hball : ∀ i, i < 4 → ∀ j, j < 4 → p.get i j = q.get i j := by
    intro i hi j hj
    rw [hpcell i hi j hj, hqcell i hi j hj, cst99_cell, cst99_cell]
  simp
  exact hball

/-- C8 amended: a successful generation advances the source's cursor by
exactly 5·(res² + (res div 4)²) > 0 samples, so a second invocation on the
same object draws from a disjoint, later stream segment and is therefore
not guaranteed to reproduce the first pattern: the two runs coincide exactly
when the two segments induce the same fields, and diverge otherwise — as
witnessed concretely by a stream whose first segment is 7/10 and whose
second segment is 0, where the first run paints (0, 0) dark green and the
second run paints it olive green. -/
theorem C8_amended (gf : ℚ → Arr ℚ → Arr ℚ) (hgf : GfShape gf) (res : ℕ)
    (hres : 4 ∣ res) (hpos : 0 < res) (s : ℕ → ℚ) :
    okCursor (generate_camo_pattern gf res (seedRng s)) = some (5 * delta res) ∧
    0 < 5 * delta res ∧
    okCell (generate_camo_pattern gfId 4 (seedRng sdiv)) 0 0 ≠
      okCell (secondRun gfId 4 (seedRng sdiv)) 0 0 := by
  refine ⟨?_, ?_, ?_⟩
  · obtain ⟨p, hp, _, _, _⟩ := generate_ok gf hgf res hres s 0
    simp only [seedRng]
    rw [hp]
    simp [okCursor]
  · have hsq : 0 < res * res := Nat.mul_pos hpos hpos
    unfold delta
    omega
  · obtain ⟨p, hp, hpr, hpc, hpcell⟩ := generate_ok gfId gfId_shape 4 ⟨1, rfl⟩ sdiv 0
    obtain ⟨q, hq, hqr, hqc, hqcell⟩ :=
      generate_ok gfId gfId_shape 4 ⟨1, rfl⟩ sdiv (0 + 5 * delta 4)
    have hsec : secondRun gfId 4 (seedRng sdiv) =
        .ok (q, ⟨sdiv, 0 + 5 * delta 4 + 5 * delta 4⟩) := by
      unfold secondRun
      simp only [seedRng]
      rw [hp]
      exact hq
    simp only [seedRng] at hsec ⊢
    rw [hp, hsec]
    dsimp only [okCell]
    rw [hpcell 0 (by omega) 0 (by omega), hqcell 0 (by omega) 0 (by omega),
      sdiv_cell_first, sdiv_cell_second, if_neg dark_ne_zero, if_pos rfl]
    intro habs
    rw [Option.some_inj] at habs
    exact absurd habs (by norm_num [dark_green, olive_green, Prod.ext_iff])

/-- Witness for C8 amended at the identity collaborator, resolution 4 and a
constant stream. -/
theorem C8_witness :
    okCursor (generate_camo_pattern gfId 4 (seedRng cstHalf)) = some (5 * delta 4) ∧
    0 < 5 * delta 4 ∧
    okCell (generate_camo_pattern gfId 4 (seedRng sdiv)) 0 0 ≠
      okCell (secondRun gfId 4 (seedRng sdiv)) 0 0 :=
  C8_amended gfId gfId_shape 4 ⟨1, rfl⟩ (by omega) cstHalf
